import Mathlib

/-!
Verification of the equity-curve analytics in `generate_site_data.py` and
`generate_landing.py` of the EFP Wealth repository.

Equity series are shallowly embedded as lists of (timestamp, value) pairs with
rational values.  The pandas / numpy operations used by the two scripts
(`cummax`, `pct_change().dropna()`, `resample(period).last()`, `Series.std`,
`np.cov`, `Index.intersection` + `.loc`) are embedded as recursive list
functions; real powers (the CAGR exponentiation) and square roots (the Sharpe
annualisation) live in `Real`.
-/

namespace EFP

/-- Round-half-to-even of a rational to an integer, as Python's built-in
`round` behaves on exactly representable values. -/
def rndHE (x : ℚ) : ℤ :=
  let f := ⌊x⌋
  let r := x - f
  if r < 1/2 then f
  else if 1/2 < r then f + 1
  else if f % 2 = 0 then f else f + 1

/-- Python's `round(x, d)` on exact decimal values: round-half-to-even at
`d` decimal places. -/
def roundTo (d : ℕ) (x : ℚ) : ℚ :=
  (rndHE (x * 10 ^ d) : ℚ) / 10 ^ d

/-- Running maximum tail: `cummaxAux m xs` is pandas `cummax` over `xs`
with an already-seen maximum `m`. -/
def cummaxAux (m : ℚ) : List ℚ → List ℚ
  | [] => []
  | x :: xs => max m x :: cummaxAux (max m x) xs

/-- pandas `Series.cummax` on the list of values. -/
def cummax : List ℚ → List ℚ
  | [] => []
  | x :: xs => x :: cummaxAux x xs

/-- The running maximum of the first `i + 1` values of `l` (the peak seen up
to and including index `i`); the reference notion used to specify
`compute_drawdown`. -/
def runningMax (l : List ℚ) (i : ℕ) : ℚ :=
  (l.take (i + 1)).foldl max l.headI

/-- pandas `pct_change` after the first value: `pctChangeValsAux prev l` maps
each value `v` to `v / prev - 1` against its predecessor. -/
def pctChangeValsAux (prev : ℚ) : List ℚ → List ℚ
  | [] => []
  | v :: rest => (v / prev - 1) :: pctChangeValsAux v rest

/-- pandas `Series.pct_change().dropna()` on a list of values: consecutive
ratios minus one, with the leading NaN dropped. -/
def pctChangeVals : List ℚ → List ℚ
  | [] => []
  | v :: rest => pctChangeValsAux v rest

/-- Keyed variant of `pctChangeValsAux`, keeping each point's key. -/
def pctChangeAux {K : Type} (prev : ℚ) : List (K × ℚ) → List (K × ℚ)
  | [] => []
  | p :: rest => (p.1, p.2 / prev - 1) :: pctChangeAux p.2 rest

/-- pandas `pct_change().dropna()` on a keyed series. -/
def pctChangeKeyed {K : Type} : List (K × ℚ) → List (K × ℚ)
  | [] => []
  | p :: rest => pctChangeAux p.2 rest

/-- Tail worker for `resampleLast`: `k` is the current bucket key and `v` the
last value seen in that bucket. -/
def resampleLastAux {T K : Type} [DecidableEq K] (key : T → K) (k : K) (v : ℚ) :
    List (T × ℚ) → List (K × ℚ)
  | [] => [(k, v)]
  | p :: rest =>
    if key p.1 = k then resampleLastAux key k p.2 rest
    else (k, v) :: resampleLastAux key (key p.1) p.2 rest

/-- pandas `resample(period).last().dropna()` on a sorted keyed series: one
output point per run of consecutive observations sharing a bucket key, holding
the last value observed in the bucket. -/
def resampleLast {T K : Type} [DecidableEq K] (key : T → K) :
    List (T × ℚ) → List (K × ℚ)
  | [] => []
  | p :: rest => resampleLastAux key (key p.1) p.2 rest

/-- Arithmetic mean (pandas `Series.mean`); `0` on the empty list. -/
def mean (xs : List ℚ) : ℚ := xs.sum / (xs.length : ℚ)

/-- Sample variance with `ddof = 1` (pandas `Series.std` squared, numpy
`cov[i,i]`); the degenerate divisions (length ≤ 1) collapse to `0`, which is
on the same side of every `> 0` guard as the NaN the libraries produce. -/
def svar (xs : List ℚ) : ℚ :=
  (xs.map (fun x => (x - mean xs) ^ 2)).sum / ((xs.length : ℚ) - 1)

/-- Sample covariance with `ddof = 1` of a list of pairs (numpy
`np.cov(x, y)[0, 1]`). -/
def scov (ps : List (ℚ × ℚ)) : ℚ :=
  (ps.map (fun p =>
    (p.1 - mean (ps.map Prod.fst)) * (p.2 - mean (ps.map Prod.snd)))).sum
    / ((ps.length : ℚ) - 1)

/-- First-match association lookup on a keyed series. -/
def lookupQ {K : Type} [DecidableEq K] (k : K) : List (K × ℚ) → Option ℚ
  | [] => none
  | p :: rest => if p.1 = k then some p.2 else lookupQ k rest

/-- The pairing `monthly_wf.loc[common_m]` with `monthly_nifty.loc[common_m]`:
the value pairs over the keys present in both series, in the first series'
order. -/
def commonPairs {K : Type} [DecidableEq K] (s b : List (K × ℚ)) :
    List (ℚ × ℚ) :=
  s.filterMap (fun p => (lookupQ p.1 b).map (fun w => (p.2, w)))

/-- Beta: `cov[0,1] / cov[1,1] if cov[1,1] > 0 else 0` computed, as in
`generate()`, on the monthly-return pairs over the common month-set
(lines 59-63 of `generate_site_data.py`). -/
def betaOf {K : Type} [DecidableEq K] (s b : List (K × ℚ)) : ℚ :=
  if 0 < svar ((commonPairs s b).map Prod.snd)
  then scov (commonPairs s b) / svar ((commonPairs s b).map Prod.snd)
  else 0

/-- Win rate: `round((monthly_wf.loc[common_m] > 0).mean() * 100, 0)`
(line 65 of `generate_site_data.py`): the strategy's monthly returns over the
common month-set tested for strict positivity, averaged, in percent. -/
def winRate {K : Type} [DecidableEq K] (s b : List (K × ℚ)) : ℚ :=
  roundTo 0
    ((((commonPairs s b).countP (fun p => decide (0 < p.1)) : ℚ)
      / ((commonPairs s b).length : ℚ)) * 100)

/-- Calmar: `cagr / abs(max_dd) if max_dd != 0 else 0` (line 52 of
`generate_site_data.py`). -/
def calmar_ratio (cagr maxDd : ℚ) : ℚ :=
  if maxDd ≠ 0 then cagr / |maxDd| else 0

/-- Sharpe: `rets.mean() / rets.std() * np.sqrt(252) if rets.std() > 0
else 0` on `rets = wf.pct_change().dropna()` (lines 50-51 of
`generate_site_data.py`); `std` is the sample standard deviation. -/
noncomputable def sharpeOf (vals : List ℚ) : ℝ :=
  if 0 < Real.sqrt ((svar (pctChangeVals vals) : ℚ) : ℝ)
  then ((mean (pctChangeVals vals) : ℝ)
        / Real.sqrt ((svar (pctChangeVals vals) : ℚ) : ℝ)) * Real.sqrt 252
  else 0

/-- Elapsed years: `(wf_end - wf_start).days / 365.25` (line 45 of
`generate_site_data.py`), with timestamps as day numbers. -/
def yearsOf (dStart dEnd : ℕ) : ℚ := ((dEnd : ℚ) - (dStart : ℚ)) / (36525 / 100)

/-- Error outcomes the CAGR lines can produce: Python's scalar division
`1 / years` raises `ZeroDivisionError` when `years == 0`; `domainError` is the
distinguishable error the specification postulates, which no line of
`generate()` ever constructs. -/
inductive PyErr where
  | zeroDivisionError : PyErr
  | domainError : PyErr
deriving DecidableEq

/-- Lines 46-47 of `generate_site_data.py`:
`total_ret = wf.iloc[-1] / wf.iloc[0] - 1` followed by
`cagr = (1 + total_ret) ** (1 / years) - 1`, with the one exception Python
can raise there (float division `1 / years` with `years == 0`) made explicit. -/
noncomputable def cagrCode (first last years : ℚ) : Except PyErr ℝ :=
  if years = 0 then .error .zeroDivisionError
  else .ok ((1 + ((last : ℝ) / (first : ℝ) - 1)) ^ ((1 : ℝ) / (years : ℝ)) - 1)

/-- The CAGR value formula of lines 46-47 on a non-degenerate period:
`(1 + total_ret) ** (1 / years) - 1`. -/
noncomputable def cagrFormula (first last years : ℚ) : ℝ :=
  (1 + ((last : ℝ) / (first : ℝ) - 1)) ^ ((1 : ℝ) / (years : ℝ)) - 1

/-- Alpha: `cagr - nifty_cagr` (line 57 of `generate_site_data.py`):
the raw CAGR difference, not beta-adjusted. -/
noncomputable def alphaOf (strategyCagr benchmarkCagr : ℝ) : ℝ :=
  strategyCagr - benchmarkCagr

/-- Calendar week bucket of a day number (weeks of seven consecutive days),
instantiating the `resample('W')` bucketing for the counterexample series. -/
def weekOf (t : ℕ) : ℕ := t / 7

/-- Normalisation `norm_wf = wf / wf.iloc[0] * 100` (line 84 of `generate_site_data.py`,
line 97 of `generate_landing.py`): every value divided by the series' first
value and scaled to a base of 100. -/
def normalizeFirst : List (ℕ × ℚ) → List (ℕ × ℚ)
  | [] => []
  | p0 :: rest => (p0 :: rest).map (fun p => (p.1, p.2 / p0.2 * 100))

/-- Weekly curve `norm_wf.resample('W').last().dropna()` (line 86 of
`generate_site_data.py`): normalisation to 100 at the series' first value,
then weekly resampling. -/
def weeklyCurve (s : List (ℕ × ℚ)) : List (ℕ × ℚ) :=
  resampleLast weekOf (normalizeFirst s)

/-- First value `wf.iloc[0]` of a keyed series. -/
def firstVal (s : List (ℕ × ℚ)) : ℚ := (s.map Prod.snd).headI

/-- Last value `wf.iloc[-1]` of a keyed series. -/
def lastVal (s : List (ℕ × ℚ)) : ℚ := (s.map Prod.snd).getLastD 0

/-- First timestamp `wf.index[0]` of a keyed series (day number). -/
def firstDay (s : List (ℕ × ℚ)) : ℕ := (s.map Prod.fst).headI

/-- Last timestamp `wf.index[-1]` of a keyed series (day number). -/
def lastDay (s : List (ℕ × ℚ)) : ℕ := (s.map Prod.fst).getLastD 0

/-- pandas `Series.min` on a list of values. -/
def minOf (l : List ℚ) : ℚ := l.foldl min l.headI

/-- The hero metrics both generator scripts compute from the same strategy
and benchmark series: the comparison vocabulary for the duplicated pipelines. -/
structure Metrics where
  cagr : ℝ
  max_dd : ℚ
  sharpe : ℝ
  calmar : ℝ
  alpha : ℝ
  beta : ℚ
  multiple : ℚ
  win_rate : ℚ
  annual_wf : List (ℤ × ℚ)
  annual_nifty : List (ℤ × ℚ)
  weekly_wf : List (ℕ × ℚ)
  weekly_nifty : List (ℕ × ℚ)

namespace SiteData

/-- Function `compute_drawdown` of `generate_site_data.py` (lines 19-21):
`peak = equity.cummax(); return (equity - peak) / peak`. -/
def compute_drawdown (equity : List ℚ) : List ℚ :=
  (equity.zip (cummax equity)).map (fun p => (p.1 - p.2) / p.2)

/-- Function `compute_annual_returns` of `generate_site_data.py` (lines 24-26):
`equity.resample('YE').last().pct_change().dropna()`, then
`{year: round(v * 100, 1)}`. -/
def compute_annual_returns {T : Type} (yearOf : T → ℤ) (s : List (T × ℚ)) :
    List (ℤ × ℚ) :=
  (pctChangeKeyed (resampleLast yearOf s)).map
    (fun p => (p.1, roundTo 1 (p.2 * 100)))

/-- The metric computations of `generate()` in `generate_site_data.py`
(lines 40-65, 84-87, 101-102), abstracted over the calendar bucketing
functions `wk` / `mo` / `yr` pandas provides. -/
noncomputable def generate (wk mo : ℕ → ℕ) (yr : ℕ → ℤ)
    (wf niftyFull : List (ℕ × ℚ)) : Metrics :=
  let nifty := niftyFull.filter
    (fun p => decide (firstDay wf ≤ p.1) && decide (p.1 ≤ lastDay wf))
  let years : ℚ := ((lastDay wf : ℚ) - (firstDay wf : ℚ)) / (36525 / 100)
  let total_ret : ℚ := lastVal wf / firstVal wf - 1
  let cagr : ℝ := (1 + (total_ret : ℝ)) ^ ((1 : ℝ) / (years : ℝ)) - 1
  let dd := compute_drawdown (wf.map Prod.snd)
  let max_dd := minOf dd
  let rets := pctChangeVals (wf.map Prod.snd)
  let sharpe : ℝ :=
    if 0 < Real.sqrt ((svar rets : ℚ) : ℝ)
    then ((mean rets : ℝ) / Real.sqrt ((svar rets : ℚ) : ℝ)) * Real.sqrt 252
    else 0
  let calmar : ℝ := if max_dd ≠ 0 then cagr / |(max_dd : ℝ)| else 0
  let multiple := lastVal wf / firstVal wf
  let nifty_total : ℚ := lastVal nifty / firstVal nifty - 1
  let nifty_cagr : ℝ := (1 + (nifty_total : ℝ)) ^ ((1 : ℝ) / (years : ℝ)) - 1
  let alpha := cagr - nifty_cagr
  let monthly_wf := pctChangeKeyed (resampleLast mo wf)
  let monthly_nifty := pctChangeKeyed (resampleLast mo nifty)
  let ps := commonPairs monthly_wf monthly_nifty
  let beta :=
    if 0 < svar (ps.map Prod.snd)
    then scov ps / svar (ps.map Prod.snd) else 0
  let win_rate := roundTo 0
    (((ps.countP (fun p => decide (0 < p.1)) : ℚ) / (ps.length : ℚ)) * 100)
  ⟨cagr, max_dd, sharpe, calmar, alpha, beta, multiple, win_rate,
    compute_annual_returns yr wf, compute_annual_returns yr nifty,
    resampleLast wk (normalizeFirst wf), resampleLast wk (normalizeFirst nifty)⟩

end SiteData

namespace Landing

/-- Function `compute_drawdown` of `generate_landing.py` (lines 39-41):
`peak = equity.cummax(); return (equity - peak) / peak`. -/
def compute_drawdown (equity : List ℚ) : List ℚ :=
  (equity.zip (cummax equity)).map (fun p => (p.1 - p.2) / p.2)

/-- Function `compute_annual_returns` of `generate_landing.py` (lines 44-46):
`equity.resample('YE').last().pct_change().dropna()`, then
`{year: round(v * 100, 1)}`. -/
def compute_annual_returns {T : Type} (yearOf : T → ℤ) (s : List (T × ℚ)) :
    List (ℤ × ℚ) :=
  (pctChangeKeyed (resampleLast yearOf s)).map
    (fun p => (p.1, roundTo 1 (p.2 * 100)))

/-- The metric computations of `generate_landing()` in `generate_landing.py`
(lines 57-125), abstracted over the same calendar bucketing functions. -/
noncomputable def generate (wk mo : ℕ → ℕ) (yr : ℕ → ℤ)
    (wf niftyFull : List (ℕ × ℚ)) : Metrics :=
  let nifty := niftyFull.filter
    (fun p => decide (firstDay wf ≤ p.1) && decide (p.1 ≤ lastDay wf))
  let years : ℚ := ((lastDay wf : ℚ) - (firstDay wf : ℚ)) / (36525 / 100)
  let total_ret : ℚ := lastVal wf / firstVal wf - 1
  let cagr : ℝ := (1 + (total_ret : ℝ)) ^ ((1 : ℝ) / (years : ℝ)) - 1
  let dd := compute_drawdown (wf.map Prod.snd)
  let max_dd := minOf dd
  let rets := pctChangeVals (wf.map Prod.snd)
  let sharpe : ℝ :=
    if 0 < Real.sqrt ((svar rets : ℚ) : ℝ)
    then ((mean rets : ℝ) / Real.sqrt ((svar rets : ℚ) : ℝ)) * Real.sqrt 252
    else 0
  let calmar : ℝ := if max_dd ≠ 0 then cagr / |(max_dd : ℝ)| else 0
  let multiple := lastVal wf / firstVal wf
  let nifty_total : ℚ := lastVal nifty / firstVal nifty - 1
  let nifty_cagr : ℝ := (1 + (nifty_total : ℝ)) ^ ((1 : ℝ) / (years : ℝ)) - 1
  let alpha := cagr - nifty_cagr
  let monthly_wf := pctChangeKeyed (resampleLast mo wf)
  let monthly_nifty := pctChangeKeyed (resampleLast mo nifty)
  let ps := commonPairs monthly_wf monthly_nifty
  let beta :=
    if 0 < svar (ps.map Prod.snd)
    then scov ps / svar (ps.map Prod.snd) else 0
  let win_rate := roundTo 0
    (((ps.countP (fun p => decide (0 < p.1)) : ℚ) / (ps.length : ℚ)) * 100)
  ⟨cagr, max_dd, sharpe, calmar, alpha, beta, multiple, win_rate,
    compute_annual_returns yr wf, compute_annual_returns yr nifty,
    resampleLast wk (normalizeFirst wf), resampleLast wk (normalizeFirst nifty)⟩

end Landing

theorem cummaxAux_length (xs : List ℚ) : ∀ m, (cummaxAux m xs).length = xs.length := by
  induction xs with
  | nil => intro m; rfl
  | cons x xs ih => intro m; simp [cummaxAux, ih]

theorem cummax_length (l : List ℚ) : (cummax l).length = l.length := by
  cases l with
  | nil => rfl
  | cons x xs => simp [cummax, cummaxAux_length]

theorem le_foldl_max (xs : List ℚ) : ∀ m : ℚ, m ≤ xs.foldl max m := by
  induction xs with
  | nil => intro m; simp
  | cons y ys ih =>
    intro m
    exact le_trans (le_max_left m y) (ih (max m y))

theorem mem_le_foldl_max (xs : List ℚ) : ∀ (x m : ℚ), x ∈ xs → x ≤ xs.foldl max m := by
  induction xs with
  | nil => intro x m hx; cases hx
  | cons y ys ih =>
    intro x m hx
    rcases List.mem_cons.mp hx with h | h
    · subst h
      exact le_trans (le_max_right m x) (le_foldl_max ys (max m x))
    · exact ih x (max m y) h

theorem cummaxAux_getD (xs : List ℚ) :
    ∀ (m : ℚ) (i : ℕ), i < xs.length →
      (cummaxAux m xs).getD i 0 = (xs.take (i + 1)).foldl max m := by
  induction xs with
  | nil => intro m i hi; simp at hi
  | cons y ys ih =>
    intro m i hi
    cases i with
    | zero => simp [cummaxAux]
    | succ i =>
      have hi' : i < ys.length := by simpa using hi
      simp only [cummaxAux, List.getD_cons_succ, List.take_succ_cons, List.foldl_cons]
      exact ih (max m y) i hi'

theorem cummax_getD (l : List ℚ) (i : ℕ) (hi : i < l.length) :
    (cummax l).getD i 0 = runningMax l i := by
  cases l with
  | nil => simp at hi
  | cons x xs =>
    cases i with
    | zero => simp [cummax, runningMax, List.headI]
    | succ i =>
      have hi' : i < xs.length := by simpa using hi
      simp only [cummax, runningMax, List.getD_cons_succ, List.headI,
        List.take_succ_cons, List.foldl_cons, max_self]
      exact cummaxAux_getD xs x i hi'

theorem getD_le_runningMax (l : List ℚ) (i : ℕ) (hi : i < l.length) :
    l.getD i 0 ≤ runningMax l i := by
  have hmem : l.getD i 0 ∈ l.take (i + 1) := by
    have h1 : (l.take (i + 1))[i]? = l[i]? := List.getElem?_take_of_lt (by omega)
    have h2 : l[i]? = some l[i] := List.getElem?_eq_getElem hi
    have : l.getD i 0 = l[i] := by
      simp [List.getD_eq_getElem?_getD, h2]
    rw [this]
    obtain ⟨hlt, heq⟩ := List.getElem?_eq_some_iff.mp (show (l.take (i + 1))[i]? = some l[i] by rw [h1, h2])
    rw [← heq]
    exact List.getElem_mem hlt
  exact mem_le_foldl_max _ _ _ hmem

theorem runningMax_pos (l : List ℚ) (hpos : ∀ v ∈ l, 0 < v) (hne : l ≠ []) :
    ∀ i, 0 < runningMax l i := by
  intro i
  have hh : 0 < l.headI := by
    cases l with
    | nil => exact absurd rfl hne
    | cons x xs => exact hpos x (List.mem_cons_self x xs)
  exact lt_of_lt_of_le hh (le_foldl_max _ _)

theorem compute_drawdown_length (l : List ℚ) :
    (SiteData.compute_drawdown l).length = l.length := by
  simp [SiteData.compute_drawdown, List.length_zip, cummax_length]

theorem compute_drawdown_getD (l : List ℚ) (i : ℕ) (hi : i < l.length) :
    (SiteData.compute_drawdown l).getD i 0
      = (l.getD i 0 - runningMax l i) / runningMax l i := by
  have hic : i < (cummax l).length := by rw [cummax_length]; exact hi
  have hiz : i < (l.zip (cummax l)).length := by
    rw [List.length_zip, cummax_length]; omega
  have him : i < ((l.zip (cummax l)).map (fun p => (p.1 - p.2) / p.2)).length := by
    rw [List.length_map]; exact hiz
  have hid : i < (SiteData.compute_drawdown l).length := by
    rw [compute_drawdown_length]; exact hi
  have hgd : l.getD i 0 = l[i] := List.getD_eq_getElem l 0 hi
  have hcm : (cummax l).getD i 0 = (cummax l)[i] := List.getD_eq_getElem _ 0 hic
  rw [List.getD_eq_getElem _ 0 hid]
  have hmain : (SiteData.compute_drawdown l)[i]
      = (l[i] - (cummax l)[i]) / (cummax l)[i] := by
    have hunf : (SiteData.compute_drawdown l)[i]
        = ((l.zip (cummax l)).map (fun p => (p.1 - p.2) / p.2))[i] := rfl
    rw [hunf, List.getElem_map, List.getElem_zip]
  rw [hmain, ← hgd, ← hcm, cummax_getD l i hi]

/-- C1: for every equity series with strictly positive values,
`compute_drawdown` returns a series of the same length in which each point
equals (value − running maximum so far) / running maximum, every output value
is ≤ 0, and the output is exactly 0 at every index where the value attains a
new running maximum. -/
theorem C1_compute_drawdown_spec (equity : List ℚ)
    (hpos : ∀ v ∈ equity, 0 < v) :
    (SiteData.compute_drawdown equity).length = equity.length ∧
    ∀ i, i < equity.length →
      (SiteData.compute_drawdown equity).getD i 0
          = (equity.getD i 0 - runningMax equity i) / runningMax equity i ∧
      (SiteData.compute_drawdown equity).getD i 0 ≤ 0 ∧
      (equity.getD i 0 = runningMax equity i →
        (SiteData.compute_drawdown equity).getD i 0 = 0) := by
  refine ⟨compute_drawdown_length equity, fun i hi => ?_⟩
  have hne : equity ≠ [] := by
    intro h; rw [h] at hi; simp at hi
  have hpk : 0 < runningMax equity i := runningMax_pos equity hpos hne i
  have hle : equity.getD i 0 ≤ runningMax equity i := getD_le_runningMax equity i hi
  have heq := compute_drawdown_getD equity i hi
  refine ⟨heq, ?_, ?_⟩
  · rw [heq]
    apply div_nonpos_of_nonpos_of_nonneg
    · linarith
    · linarith
  · intro hattain
    rw [heq, hattain, sub_self, zero_div]

/-- C1 witness: a concrete strictly positive equity series with a new running
maximum at indices 0, 1 and 3 and a drawdown trough at index 2. -/
theorem C1_compute_drawdown_spec_witness :
    (SiteData.compute_drawdown [(100 : ℚ), 110, 99, 121]).length = 4 ∧
    (SiteData.compute_drawdown [(100 : ℚ), 110, 99, 121]).getD 2 0 = -1/10 ∧
    (SiteData.compute_drawdown [(100 : ℚ), 110, 99, 121]).getD 3 0 = 0 := by
  have h := C1_compute_drawdown_spec [(100 : ℚ), 110, 99, 121] (by
    intro v hv
    simp only [List.mem_cons, List.not_mem_nil, or_false] at hv
    rcases hv with h | h | h | h <;> rw [h] <;> norm_num)
  refine ⟨h.1, ?_, ?_⟩
  · have h2 := (h.2 2 (by norm_num)).1
    rw [h2]
    norm_num [runningMax, List.headI]
  · have h3 := (h.2 3 (by norm_num)).2.2
    rw [h3]
    norm_num [runningMax, List.headI]

/-- C6: `calmar_ratio(cagr, max_drawdown)` returns `cagr / abs(max_drawdown)`
for every nonzero `max_drawdown` and exactly 0 when `max_drawdown == 0`
(guarded division, no exception); in particular `calmar_ratio(0.15, 0.0) = 0`. -/
theorem C6_calmar_ratio_spec (cagr maxDd : ℚ) :
    (maxDd ≠ 0 → calmar_ratio cagr maxDd = cagr / |maxDd|) ∧
    (maxDd = 0 → calmar_ratio cagr maxDd = 0) ∧
    calmar_ratio (15/100) 0 = 0 := by
  refine ⟨fun h => ?_, fun h => ?_, ?_⟩
  · simp [calmar_ratio, h]
  · simp [calmar_ratio, h]
  · simp [calmar_ratio]

/-- C6 witness: the guarded division at `max_drawdown = -1/2` and the
sentinel at `max_drawdown = 0`. -/
theorem C6_calmar_ratio_spec_witness :
    calmar_ratio 1 (-1/2) = 2 ∧ calmar_ratio (15/100) 0 = 0 := by
  constructor
  · rw [(C6_calmar_ratio_spec 1 (-1/2)).1 (by norm_num)]
    rw [show |(-1/2 : ℚ)| = 1/2 by
      rw [abs_of_nonpos (by norm_num : (-1/2 : ℚ) ≤ 0)]; norm_num]
    norm_num
  · exact (C6_calmar_ratio_spec 0 0).2.2

/-- C2 counterexample: on a single-day period (`years = 0`, a degenerate
elapsed period) the CAGR lines of `generate()` raise `ZeroDivisionError` from
the scalar division `1 / years`; no distinguishable `DomainError` is
signalled, contrary to the claim. -/
theorem C2_cagrCode_counterexample :
    cagrCode 100 100 (yearsOf 5 5) = Except.error PyErr.zeroDivisionError ∧
    cagrCode 100 100 (yearsOf 5 5) ≠ Except.error PyErr.domainError := by
  have h0 : yearsOf 5 5 = 0 := by norm_num [yearsOf]
  rw [h0]
  constructor
  · simp [cagrCode]
  · simp only [cagrCode, if_pos rfl]
    intro h
    exact PyErr.noConfusion (Except.error.inj h)

/-- C2 amended: the CAGR computation performs no domain validation. When
`years = 0` the scalar division `1 / years` raises `ZeroDivisionError` (an
unrelated exception, not a `DomainError`); for every other `years` the power
is computed unguarded, also when the first value is not strictly positive;
a same-day period yields `years = 0`; no input makes the code signal a
`DomainError`. -/
theorem C2_cagrCode_amended (first last years : ℚ) :
    (years = 0 → cagrCode first last years = Except.error PyErr.zeroDivisionError) ∧
    (years ≠ 0 → cagrCode first last years
        = Except.ok ((1 + ((last : ℝ) / (first : ℝ) - 1))
            ^ ((1 : ℝ) / (years : ℝ)) - 1)) ∧
    (∀ t : ℕ, yearsOf t t = 0) ∧
    cagrCode first last years ≠ Except.error PyErr.domainError := by
  refine ⟨fun h => ?_, fun h => ?_, fun t => ?_, ?_⟩
  · simp [cagrCode, h]
  · simp [cagrCode, h]
  · simp [yearsOf]
  · by_cases h : years = 0
    · simp only [cagrCode, if_pos h]
      intro hcontra
      exact PyErr.noConfusion (Except.error.inj hcontra)
    · simp only [cagrCode, if_neg h]
      intro hcontra
      exact Except.noConfusion hcontra

/-- C2 witness: the degenerate period raises `ZeroDivisionError` and the
two-year period produces a plain value. -/
theorem C2_cagrCode_amended_witness :
    cagrCode 100 100 0 = Except.error PyErr.zeroDivisionError ∧
    ∃ v, cagrCode 100 121 2 = Except.ok v :=
  ⟨(C2_cagrCode_amended 100 100 0).1 rfl,
   ⟨_, (C2_cagrCode_amended 100 121 2).2.1 (by norm_num)⟩⟩

theorem pow_two_rpow_half (x : ℝ) (hx : 0 ≤ x) :
    (x ^ 2) ^ ((1 : ℝ) / 2) = x := by
  rw [show ((1:ℝ)/2) = ((2:ℕ):ℝ)⁻¹ by norm_num]
  rw [show x ^ 2 = x ^ (2:ℕ) from rfl]
  exact Real.pow_rpow_inv_natCast hx (by norm_num)

theorem cagrFormula_eval_sq (first last years : ℚ) (x : ℝ) (hx : 0 ≤ x)
    (hbase : 1 + (((last : ℚ) : ℝ) / ((first : ℚ) : ℝ) - 1) = x ^ 2)
    (hy : years = 2) :
    cagrFormula first last years = x - 1 := by
  unfold cagrFormula
  rw [hbase, hy]
  rw [show ((1:ℝ)/(((2:ℚ)) : ℝ)) = (1:ℝ)/2 by norm_num]
  rw [pow_two_rpow_half x hx]

/-- C9: alpha is the simple difference of the two CAGRs (not beta-adjusted),
and on strategy equity 100 → 121 and benchmark equity 100 → 110.25 over the
same 2 years the CAGRs are exactly 10% and 5% and alpha exactly 5%. -/
theorem C9_alpha_spec :
    (∀ s b : ℝ, alphaOf s b = s - b) ∧
    cagrFormula 100 121 2 = 1/10 ∧
    cagrFormula 100 (441/4) 2 = 1/20 ∧
    alphaOf (cagrFormula 100 121 2) (cagrFormula 100 (441/4) 2) = 1/20 := by
  have h1 : cagrFormula 100 121 2 = 1/10 := by
    rw [cagrFormula_eval_sq 100 121 2 (11/10) (by norm_num) (by push_cast; norm_num) rfl]
    norm_num
  have h2 : cagrFormula 100 (441/4) 2 = 1/20 := by
    rw [cagrFormula_eval_sq 100 (441/4) 2 (21/20) (by norm_num) (by push_cast; norm_num) rfl]
    norm_num
  refine ⟨fun s b => rfl, h1, h2, ?_⟩
  rw [alphaOf, h1, h2]
  norm_num

theorem pctChangeValsAux_const (c : ℚ) (hc : c ≠ 0) :
    ∀ n : ℕ, pctChangeValsAux c (List.replicate n c) = List.replicate n 0 := by
  intro n
  induction n with
  | zero => rfl
  | succ n ih => simp [List.replicate_succ, pctChangeValsAux, div_self hc, ih]

theorem mean_replicate_zero (n : ℕ) : mean (List.replicate n 0) = 0 := by
  simp [mean, List.sum_replicate]

theorem svar_replicate_zero (n : ℕ) : svar (List.replicate n 0) = 0 := by
  simp [svar, mean_replicate_zero, List.map_replicate, List.sum_replicate]

/-- C5: whenever the period-over-period returns have zero (sample) standard
deviation — in particular on any constant series — `sharpe` is exactly 0,
not NaN and not an exception; with positive standard deviation it equals
`mean(returns) / stdev(returns) * sqrt(252)`. -/
theorem C5_sharpe_spec (vals : List ℚ) :
    (svar (pctChangeVals vals) = 0 → sharpeOf vals = 0) ∧
    (∀ (n : ℕ) (c : ℚ), c ≠ 0 → vals = List.replicate n c → sharpeOf vals = 0) ∧
    (0 < svar (pctChangeVals vals) →
      sharpeOf vals = ((mean (pctChangeVals vals) : ℝ)
        / Real.sqrt ((svar (pctChangeVals vals) : ℚ) : ℝ)) * Real.sqrt 252) := by
  refine ⟨fun h => ?_, fun n c hc hv => ?_, fun h => ?_⟩
  · simp [sharpeOf, h]
  · subst hv
    have h0 : svar (pctChangeVals (List.replicate n c)) = 0 := by
      cases n with
      | zero => simp [pctChangeVals, svar, mean]
      | succ n =>
        simp only [List.replicate_succ, pctChangeVals]
        rw [pctChangeValsAux_const c hc n]
        exact svar_replicate_zero n
    simp [sharpeOf, h0]
  · have hs : 0 < Real.sqrt ((svar (pctChangeVals vals) : ℚ) : ℝ) :=
      Real.sqrt_pos.mpr (by exact_mod_cast h)
    simp only [sharpeOf, if_pos hs]

/-- C5 witness: a constant three-point series has Sharpe exactly 0. -/
theorem C5_sharpe_spec_witness : sharpeOf (List.replicate 3 100) = 0 :=
  (C5_sharpe_spec (List.replicate 3 100)).2.1 3 100 (by norm_num) rfl

theorem rndHE_intCast (n : ℤ) : rndHE (n : ℚ) = n := by
  norm_num [rndHE, Int.floor_intCast]

theorem roundTo_one_eval (x : ℚ) (n : ℤ) (h : x * 10 ^ (1:ℕ) = (n : ℚ)) :
    roundTo 1 x = (n : ℚ) / 10 := by
  unfold roundTo
  rw [h, rndHE_intCast]
  norm_num

theorem roundTo_zero_eval (x : ℚ) (n : ℤ) (h : x = (n : ℚ)) :
    roundTo 0 x = (n : ℚ) := by
  unfold roundTo
  rw [pow_zero, mul_one, h, rndHE_intCast, div_one]

theorem pctChangeAux_keys {K : Type} (l : List (K × ℚ)) :
    ∀ prev, (pctChangeAux prev l).map Prod.fst = l.map Prod.fst := by
  induction l with
  | nil => intro prev; rfl
  | cons p rest ih => intro prev; simp [pctChangeAux, ih]

theorem pctChangeKeyed_keys {K : Type} (l : List (K × ℚ)) :
    (pctChangeKeyed l).map Prod.fst = (l.map Prod.fst).drop 1 := by
  cases l with
  | nil => rfl
  | cons p rest => simp [pctChangeKeyed, pctChangeAux_keys]

/-- C7: `annual_returns` resamples to year-end values, takes the percent
change between consecutive year-end values and drops the first year; on a
3-year series with year-end values 100, 120, 90 it yields exactly
year2 ↦ 20.0 and year3 ↦ −25.0, the first year being absent. -/
theorem C7_annual_returns_spec :
    SiteData.compute_annual_returns (id : ℤ → ℤ)
        [((2020 : ℤ), (100 : ℚ)), (2021, 120), (2022, 90)]
      = [((2021 : ℤ), (20 : ℚ)), ((2022 : ℤ), (-25 : ℚ))] ∧
    (2020 : ℤ) ∉ (SiteData.compute_annual_returns (id : ℤ → ℤ)
        [((2020 : ℤ), (100 : ℚ)), (2021, 120), (2022, 90)]).map Prod.fst ∧
    ∀ (s : List (ℤ × ℚ)),
      (SiteData.compute_annual_returns id s).map Prod.fst
        = ((resampleLast id s).map Prod.fst).drop 1 := by
  have h1 : SiteData.compute_annual_returns (id : ℤ → ℤ)
        [((2020 : ℤ), (100 : ℚ)), (2021, 120), (2022, 90)]
      = [((2021 : ℤ), (20 : ℚ)), ((2022 : ℤ), (-25 : ℚ))] := by
    norm_num [SiteData.compute_annual_returns, resampleLast, resampleLastAux,
      pctChangeKeyed, pctChangeAux]
    constructor
    · rw [roundTo_one_eval 20 200 (by norm_num)]
      norm_num
    · rw [roundTo_one_eval (-25) (-250) (by norm_num)]
      norm_num
  refine ⟨h1, ?_, fun s => ?_⟩
  · rw [h1]
    decide
  unfold SiteData.compute_annual_returns
  rw [List.map_map]
  rw [show (Prod.fst ∘ fun p : ℤ × ℚ => (p.1, roundTo 1 (p.2 * 100)))
        = Prod.fst from rfl]
  exact pctChangeKeyed_keys _

/-- C3 counterexample: the code normalises the series to 100 at its first
value and only then resamples, so on a series whose first week holds two
observations (days 0 and 1, values 100 and 110) the first weekly output point
is 110, not the normalisation base 100 — the claim fails as stated. -/
theorem C3_weeklyCurve_counterexample :
    ((weeklyCurve [(0, 100), (1, 110)]).map Prod.snd).head? = some 110 ∧
    (110 : ℚ) ≠ 100 := by
  constructor
  · norm_num [weeklyCurve, normalizeFirst, resampleLast, resampleLastAux, weekOf]
  · norm_num

/-- C3 amended: the code rescales every value by the single common factor
`normalize_to / first value` (so the first point of the pre-resample series
equals the base 100), and the first point of the weekly-resampled output
equals 100 exactly when no later observation shares the first point's week
(in general it is the rescaled last observation of the first week). -/
theorem C3_weeklyCurve_amended (t0 : ℕ) (v0 : ℚ) (rest : List (ℕ × ℚ))
    (hv : v0 ≠ 0) :
    normalizeFirst ((t0, v0) :: rest)
        = ((t0, v0) :: rest).map (fun p => (p.1, p.2 / v0 * 100)) ∧
    ((∀ q ∈ rest.head?, weekOf q.1 ≠ weekOf t0) →
      ((weeklyCurve ((t0, v0) :: rest)).map Prod.snd).head? = some 100) := by
  constructor
  · rfl
  · intro hrest
    cases rest with
    | nil =>
      simp [weeklyCurve, normalizeFirst, resampleLast, resampleLastAux,
        div_self hv]
    | cons q rr =>
      have hq : weekOf q.1 ≠ weekOf t0 := hrest q rfl
      simp only [weeklyCurve, normalizeFirst, List.map_cons, resampleLast,
        resampleLastAux]
      rw [if_neg hq]
      simp [div_self hv]

/-- C3 witness for the amended claim: with the second observation in the next
week, the first weekly output point is exactly 100. -/
theorem C3_weeklyCurve_amended_witness :
    ((weeklyCurve [(0, 100), (7, 110)]).map Prod.snd).head? = some 100 :=
  (C3_weeklyCurve_amended 0 100 [(7, 110)] (by norm_num)).2 (by
    intro q hq
    have hq' : ((7 : ℕ), (110 : ℚ)) = q := by
      simpa using hq
    subst hq'
    decide)

theorem lookupQ_self {K : Type} [DecidableEq K] :
    ∀ (s : List (K × ℚ)), (s.map Prod.fst).Nodup →
      ∀ q ∈ s, lookupQ q.1 s = some q.2 := by
  intro s
  induction s with
  | nil => intro _ q hq; cases hq
  | cons p rest ih =>
    intro hnd q hq
    rw [List.map_cons, List.nodup_cons] at hnd
    rcases List.mem_cons.mp hq with h | h
    · subst h
      simp [lookupQ]
    · have hkey : q.1 ∈ rest.map Prod.fst := List.mem_map_of_mem Prod.fst h
      have hne : p.1 ≠ q.1 := fun he => hnd.1 (he ▸ hkey)
      simp only [lookupQ, if_neg hne]
      exact ih hnd.2 q h

theorem commonPairs_eq_diag {K : Type} [DecidableEq K] (b : List (K × ℚ)) :
    ∀ (s : List (K × ℚ)), (∀ q ∈ s, lookupQ q.1 b = some q.2) →
      commonPairs s b = s.map (fun p => (p.2, p.2)) := by
  intro s
  induction s with
  | nil => intro _; rfl
  | cons p rest ih =>
    intro h
    have hp := h p (List.mem_cons_self p rest)
    have ht := ih (fun q hq => h q (List.mem_cons_of_mem p hq))
    simp only [commonPairs, List.filterMap_cons, hp, Option.map_some',
      List.map_cons] at ht ⊢
    rw [ht]

theorem scov_diag (xs : List ℚ) :
    scov (xs.map (fun x => (x, x))) = svar xs := by
  unfold scov svar
  have hfst : (xs.map (fun x => (x, x))).map Prod.fst = xs := by
    rw [List.map_map]
    exact List.map_id xs
  have hsnd : (xs.map (fun x => (x, x))).map Prod.snd = xs := by
    rw [List.map_map]
    exact List.map_id xs
  rw [hfst, hsnd, List.map_map, List.length_map]
  congr 1
  congr 1
  apply List.map_congr_left
  intro x _
  simp only [Function.comp_apply]
  ring

/-- C4: beta — the covariance of the strategy and benchmark monthly returns
over their common month-set divided by the benchmark variance — is exactly 1
on two identical monthly-return sequences with nonzero variance, and exactly
0 whenever the benchmark variance over the common months is 0. -/
theorem C4_beta_spec {K : Type} [DecidableEq K] (s b : List (K × ℚ)) :
    ((s.map Prod.fst).Nodup → 0 < svar ((commonPairs s s).map Prod.snd) →
      betaOf s s = 1) ∧
    (svar ((commonPairs s b).map Prod.snd) = 0 → betaOf s b = 0) := by
  constructor
  · intro hnd hvar
    have hcp : commonPairs s s = s.map (fun p => (p.2, p.2)) :=
      commonPairs_eq_diag s s (lookupQ_self s hnd)
    have hdiag : s.map (fun p : K × ℚ => (p.2, p.2))
        = (s.map Prod.snd).map (fun x => (x, x)) := by
      rw [List.map_map]
      exact List.map_congr_left (fun p _ => rfl)
    have hsnd : (commonPairs s s).map Prod.snd = s.map Prod.snd := by
      rw [hcp, List.map_map]
      exact List.map_congr_left (fun p _ => rfl)
    have hscov : scov (commonPairs s s) = svar (s.map Prod.snd) := by
      rw [hcp, hdiag]
      exact scov_diag _
    have hvar' : 0 < svar (s.map Prod.snd) := by
      rw [← hsnd]
      exact hvar
    unfold betaOf
    rw [if_pos (by rw [hsnd]; exact hvar')]
    rw [hscov, hsnd]
    exact div_self (ne_of_gt hvar')
  · intro h
    unfold betaOf
    rw [h]
    simp

/-- C4 witness: a two-month series paired with itself gives beta 1; against a
constant benchmark over the same months it gives beta 0. -/
theorem C4_beta_spec_witness :
    betaOf [((0:ℕ), (1:ℚ)), (1, 2)] [((0:ℕ), (1:ℚ)), (1, 2)] = 1 ∧
    betaOf [((0:ℕ), (1:ℚ)), (1, 2)] [((0:ℕ), (5:ℚ)), (1, 5)] = 0 := by
  constructor
  · apply (C4_beta_spec [((0:ℕ), (1:ℚ)), (1, 2)] [((0:ℕ), (1:ℚ)), (1, 2)]).1
    · decide
    · norm_num [commonPairs, lookupQ, svar, mean, List.filterMap_cons,
        Option.map_some']
  · apply (C4_beta_spec [((0:ℕ), (1:ℚ)), (1, 2)] [((0:ℕ), (5:ℚ)), (1, 5)]).2
    norm_num [commonPairs, lookupQ, svar, mean, List.filterMap_cons,
      Option.map_some']

theorem lookupQ_isSome_iff {K : Type} [DecidableEq K] (k : K) :
    ∀ b : List (K × ℚ), (lookupQ k b).isSome = true ↔ k ∈ b.map Prod.fst := by
  intro b
  induction b with
  | nil => simp [lookupQ]
  | cons p rest ih =>
    by_cases h : p.1 = k
    · simp [lookupQ, h]
    · rw [List.map_cons, List.mem_cons]
      simp only [lookupQ, if_neg h]
      rw [ih]
      constructor
      · exact fun hm => Or.inr hm
      · intro hm
        rcases hm with hm | hm
        · exact absurd hm.symm h
        · exact hm

theorem commonPairs_keys_congr {K : Type} [DecidableEq K] :
    ∀ (s b b' : List (K × ℚ)), b.map Prod.fst = b'.map Prod.fst →
      (commonPairs s b).map Prod.fst = (commonPairs s b').map Prod.fst := by
  intro s
  induction s with
  | nil => intro b b' _; rfl
  | cons p rest ih =>
    intro b b' hbb
    cases hob : lookupQ p.1 b with
    | none =>
      cases hob' : lookupQ p.1 b' with
      | none =>
        simp only [commonPairs, List.filterMap_cons, hob, hob',
          Option.map_none']
        exact ih b b' hbb
      | some w' =>
        exfalso
        have h1 : p.1 ∈ b'.map Prod.fst :=
          (lookupQ_isSome_iff p.1 b').mp (by rw [hob']; rfl)
        have h2 : p.1 ∈ b.map Prod.fst := hbb ▸ h1
        have h3 := (lookupQ_isSome_iff p.1 b).mpr h2
        rw [hob] at h3
        exact Bool.noConfusion h3
    | some w =>
      cases hob' : lookupQ p.1 b' with
      | none =>
        exfalso
        have h1 : p.1 ∈ b.map Prod.fst :=
          (lookupQ_isSome_iff p.1 b).mp (by rw [hob]; rfl)
        have h2 : p.1 ∈ b'.map Prod.fst := hbb ▸ h1
        have h3 := (lookupQ_isSome_iff p.1 b').mpr h2
        rw [hob'] at h3
        exact Bool.noConfusion h3
      | some w' =>
        simp only [commonPairs, List.filterMap_cons, hob, hob',
          Option.map_some', List.map_cons]
        congr 1
        exact ih b b' hbb

/-- C8: the win rate is the fraction of months in the common month-set of
strategy and benchmark in which the strategy's own monthly return is strictly
positive — an absolute test against zero: it is invariant under changing the
benchmark's return values (only its month-set matters), it is 100% when the
benchmark beats the strategy in every common month, and 50% when the strategy
beats the benchmark in both months but is positive in only one. -/
theorem C8_win_rate_spec {K : Type} [DecidableEq K] (s b : List (K × ℚ)) :
    (winRate s b = roundTo 0
        ((((commonPairs s b).countP (fun p => decide (0 < p.1)) : ℚ)
          / ((commonPairs s b).length : ℚ)) * 100)) ∧
    (∀ b' : List (K × ℚ), b.map Prod.fst = b'.map Prod.fst →
      winRate s b = winRate s b') ∧
    winRate [((0:ℕ), (1/100 : ℚ)), (1, 2/100)]
        [((0:ℕ), (5/100 : ℚ)), (1, 6/100)] = 100 ∧
    winRate [((0:ℕ), (1/100 : ℚ)), (1, -2/100)]
        [((0:ℕ), (-5/100 : ℚ)), (1, -6/100)] = 50 := by
  refine ⟨rfl, fun b' hbb => ?_, ?_, ?_⟩
  · have hk := commonPairs_keys_congr s b b' hbb
    unfold winRate
    rw [show (commonPairs s b).countP (fun p => decide (0 < p.1))
          = ((commonPairs s b).map Prod.fst).countP (fun x => decide (0 < x))
        from by rw [List.countP_map]; rfl]
    rw [show (commonPairs s b').countP (fun p => decide (0 < p.1))
          = ((commonPairs s b').map Prod.fst).countP (fun x => decide (0 < x))
        from by rw [List.countP_map]; rfl]
    rw [show (commonPairs s b).length = ((commonPairs s b).map Prod.fst).length
        from (List.length_map _ _).symm]
    rw [show (commonPairs s b').length
          = ((commonPairs s b').map Prod.fst).length
        from (List.length_map _ _).symm]
    rw [hk]
  · have hcp : commonPairs [((0:ℕ), (1/100 : ℚ)), (1, 2/100)]
        [((0:ℕ), (5/100 : ℚ)), (1, 6/100)]
          = [(1/100, 5/100), (2/100, 6/100)] := by
      norm_num [commonPairs, lookupQ, List.filterMap_cons, Option.map_some']
    unfold winRate
    rw [hcp]
    rw [show ([((1:ℚ)/100, (5:ℚ)/100), (2/100, 6/100)].countP
          (fun p => decide (0 < p.1)) : ℚ) = 2 by
      norm_num [List.countP_cons, List.countP_nil, decide_eq_true_eq]]
    rw [roundTo_zero_eval _ 100 (by norm_num)]
    norm_num
  · have hcp : commonPairs [((0:ℕ), (1/100 : ℚ)), (1, -2/100)]
        [((0:ℕ), (-5/100 : ℚ)), (1, -6/100)]
          = [(1/100, -5/100), (-2/100, -6/100)] := by
      norm_num [commonPairs, lookupQ, List.filterMap_cons, Option.map_some']
    unfold winRate
    rw [hcp]
    rw [show ([((1:ℚ)/100, (-5:ℚ)/100), (-2/100, -6/100)].countP
          (fun p => decide (0 < p.1)) : ℚ) = 1 by
      norm_num [List.countP_cons, List.countP_nil, decide_eq_true_eq]]
    rw [roundTo_zero_eval _ 50 (by norm_num)]
    norm_num

/-- C8 witness: changing only the benchmark's values over the same month-set
leaves the win rate unchanged. -/
theorem C8_win_rate_spec_witness :
    winRate [((0:ℕ), (1/100 : ℚ)), (1, 2/100)]
        [((0:ℕ), (5/100 : ℚ)), (1, 6/100)]
      = winRate [((0:ℕ), (1/100 : ℚ)), (1, 2/100)]
        [((0:ℕ), (-7 : ℚ)), (1, 9)] :=
  (C8_win_rate_spec [((0:ℕ), (1/100 : ℚ)), (1, 2/100)]
    [((0:ℕ), (5/100 : ℚ)), (1, 6/100)]).2.1
    [((0:ℕ), (-7 : ℚ)), (1, 9)] rfl

/-- C10: the analytics pipelines duplicated in `generate_site_data.py` and
`generate_landing.py` compute identical values for every shared hero metric —
CAGR, max drawdown, Sharpe, Calmar, alpha, beta, total-return multiple, win
rate, annual-return mappings and weekly normalised equity curves — for every
pair of input series and every calendar bucketing: the two duplicated
implementations are extensionally equal on the metrics both produce. -/
theorem C10_site_landing_equal (wk mo : ℕ → ℕ) (yr : ℕ → ℤ)
    (wf nifty : List (ℕ × ℚ)) :
    SiteData.generate wk mo yr wf nifty = Landing.generate wk mo yr wf nifty :=
  rfl

end EFP
